import Mathlib

/-!
# gr-dsd: the scheduler-facing block `howto_square_ff`

A shallow embedding of `lib/howto_square_ff.cc`: the constructor, `forecast`
and `general_work`, which hand sample windows to the DSD decoder thread
through the fields of `params.state`, two mutexes and two condition variables.

Conventions of the embedding

* C `int` values are `Int`; the one arithmetic operation of the file
  (`noutput_items * 6` in `forecast`) is reduced to the 32-bit two's
  complement range by `wrap32`.
* Pointers are addresses (`Nat`).  A `gr_vector` is a function from the
  stream index to the element.
* The block runs on the scheduler thread.  `Adapter` holds the exchange
  fields of `params.state` together with the two mutexes as seen from that
  thread (does the scheduler thread own the mutex or not).
* Every operation returns, next to the new `Adapter`, the list of steps it
  executed, each paired with the `Adapter` as it is right after the step.
* The decoder thread is not part of `howto_square_ff.cc`.  What it does to
  the exchange fields while the scheduler thread sleeps in
  `pthread_cond_wait` is a parameter `worker : Nat → DsdState → DsdState`
  (the change made during the k-th wait of the call).  The number of waits a
  run may take is bounded by `fuel`; a run that is still waiting when the
  fuel is used up has `result = none`.
-/

namespace GrDsd

/-- The two mutexes of `params.state`. -/
inductive Mutex where
  | input_mutex
  | output_mutex
deriving DecidableEq, Repr

/-- The two condition variables of `params.state`. -/
inductive Cond where
  | input_ready
  | output_ready
deriving DecidableEq, Repr

/-- The fields of `params.state` that `howto_square_ff.cc` assigns. -/
inductive Field where
  | input_samples
  | input_length
  | input_offset
  | output_samples
  | output_num_samples
  | output_length
  | output_finished
  | output_buffer
  | output_offset
deriving DecidableEq, Repr

/-- The exchange fields of `params.state` (a `dsd_state`). -/
structure DsdState where
  input_samples : Nat
  input_length : Int
  input_offset : Int
  output_samples : Nat
  output_num_samples : Int
  output_length : Int
  output_finished : Int
  output_buffer : Nat
  output_offset : Int
deriving DecidableEq, Repr

/-- The block object as seen from the scheduler thread. -/
structure Adapter where
  state : DsdState
  holds_input_mutex : Bool
  holds_output_mutex : Bool
deriving DecidableEq, Repr

/-- One executed statement of the scheduler thread. -/
inductive Step where
  | lock (m : Mutex)
  | unlock (m : Mutex)
  | write (f : Field)
  | signal (c : Cond)
  | wait (c : Cond) (m : Mutex)
  | spawn
  | consume (which_input : Int) (how_many_items : Int)
  | ret (v : Int)
deriving DecidableEq, Repr

/-- A step together with the block right after it. -/
abbrev Entry := Step × Adapter

/-- What one `general_work` call reports to the scheduler. -/
structure WorkResult where
  consumed : Int
  produced : Int
deriving DecidableEq, Repr

/-- The outcome of a run: `result = none` means the call is still blocked. -/
structure Outcome where
  adapter : Adapter
  trace : List Entry
  result : Option WorkResult

/-- The fields of the input view. -/
def Field.isInputView : Field → Bool
  | .input_samples => true
  | .input_length => true
  | .input_offset => true
  | _ => false

/-- The fields of the output view. -/
def Field.isOutputView : Field → Bool
  | .output_samples => true
  | .output_num_samples => true
  | .output_length => true
  | .output_finished => true
  | _ => false

/-- Steps that touch the shared exchange state: field writes, mutex
operations, condition-variable operations, thread creation. -/
def Step.touchesExchange : Step → Bool
  | .consume _ _ => false
  | .ret _ => false
  | _ => true

/-- Reduction of an integer to the range of a 32-bit `int`. -/
def wrap32 (x : Int) : Int := (x + 2147483648) % 4294967296 - 2147483648

/-- The block with `params.state` replaced by `s`. -/
def Adapter.setState (a : Adapter) (s : DsdState) : Adapter := { a with state := s }

/-- The constructor `howto_square_ff::howto_square_ff ()`, from the point
where the mutexes and conditions exist.  `init` is `params.state` as left by
`initState`, `lock_ok` says whether `pthread_mutex_lock (output_mutex)`
returned 0, `buf` is the address returned by `malloc`. -/
def howto_square_ff (init : DsdState) (lock_ok : Bool) (buf : Nat) : Adapter × List Entry :=
  let a0 : Adapter := ⟨init, false, false⟩
  let a1 : Adapter := { a0 with holds_output_mutex := lock_ok }
  let a2 := a1.setState { a1.state with input_length := 0 }
  let a3 := a2.setState { a2.state with output_buffer := buf }
  let a4 := a3.setState { a3.state with output_offset := 0 }
  (a4, [(Step.lock .output_mutex, a1), (Step.write .input_length, a2),
        (Step.write .output_buffer, a3), (Step.write .output_offset, a4),
        (Step.spawn, a4)])

/-- The member `howto_square_ff::forecast`: stores `noutput_items * 6` in
`ninput_items_required[0]`; the block is passed through. -/
def forecast (noutput_items : Int) (ninput_items_required : Nat → Int) (a : Adapter) :
    (Nat → Int) × Adapter :=
  (Function.update ninput_items_required 0 (wrap32 (noutput_items * 6)), a)

/-- The outcome of the wait loop: `exited = false` means still waiting. -/
structure LoopOutcome where
  adapter : Adapter
  trace : List Entry
  exited : Bool

/-- The return from `pthread_cond_wait (output_ready, output_mutex)`: while
the scheduler thread slept, the decoder thread changed the exchange fields by
`worker k` (the identity for a spurious wake-up or a wait that failed and
only printed); the mutex is owned again as before the wait. -/
def wake (worker : Nat → DsdState → DsdState) (k : Nat) (a : Adapter) : Adapter :=
  a.setState (worker k a.state)

/-- The assignment `params.state.input_offset = 0`. -/
def resetInputOffset (a : Adapter) : Adapter :=
  a.setState { a.state with input_offset := 0 }

/-- The loop `while (params.state.output_finished == 0)` of `general_work`:
each round sleeps in `pthread_cond_wait` and then assigns
`params.state.input_offset = 0`.  `k` counts the waits already made in this
call. -/
def waitLoop (worker : Nat → DsdState → DsdState) : Nat → Nat → Adapter → LoopOutcome
  | 0, _, a => ⟨a, [], a.state.output_finished != 0⟩
  | fuel + 1, k, a =>
    if a.state.output_finished = 0 then
      ⟨(waitLoop worker fuel (k + 1) (resetInputOffset (wake worker k a))).adapter,
       (Step.wait .output_ready .output_mutex, wake worker k a) ::
         (Step.write .input_offset, resetInputOffset (wake worker k a)) ::
         (waitLoop worker fuel (k + 1) (resetInputOffset (wake worker k a))).trace,
       (waitLoop worker fuel (k + 1) (resetInputOffset (wake worker k a))).exited⟩
    else ⟨a, [], true⟩

/-- The statements of `general_work` between the size test and the wait loop
(source lines 189 to 210): the four output-view assignments, the lock of
`input_mutex` (`lock_ok` says whether `pthread_mutex_lock` returned 0), the
two input-view assignments, the signal on `input_ready` and the unlock. -/
def publish (lock_ok : Bool) (noutput_items : Int) (ninput_items : Nat → Int)
    (input_items : Nat → Nat) (output_items : Nat → Nat) (a : Adapter) :
    Adapter × List Entry :=
  let a1 := a.setState { a.state with output_samples := output_items 0 }
  let a2 := a1.setState { a1.state with output_num_samples := 0 }
  let a3 := a2.setState { a2.state with output_length := noutput_items }
  let a4 := a3.setState { a3.state with output_finished := 0 }
  let a5 : Adapter := { a4 with holds_input_mutex := a4.holds_input_mutex || lock_ok }
  let a6 := a5.setState { a5.state with input_samples := input_items 0 }
  let a7 := a6.setState { a6.state with input_length := ninput_items 0 }
  let a8 : Adapter := { a7 with holds_input_mutex := false }
  (a8,
   [(Step.write .output_samples, a1), (Step.write .output_num_samples, a2),
    (Step.write .output_length, a3), (Step.write .output_finished, a4),
    (Step.lock .input_mutex, a5), (Step.write .input_samples, a6),
    (Step.write .input_length, a7), (Step.signal .input_ready, a7),
    (Step.unlock .input_mutex, a8)])

/-- The member `howto_square_ff::general_work`: the size test, `publish`,
the wait loop, then `consume (0, ninput_items[0])` and
`return params.state.output_num_samples`. -/
def general_work (lock_ok : Bool) (worker : Nat → DsdState → DsdState) (fuel : Nat)
    (noutput_items : Int) (ninput_items : Nat → Int)
    (input_items : Nat → Nat) (output_items : Nat → Nat) (a : Adapter) : Outcome :=
  if noutput_items ≤ 160 then
    ⟨a, [(Step.consume 0 0, a), (Step.ret 0, a)], some ⟨0, 0⟩⟩
  else
    let p := publish lock_ok noutput_items ninput_items input_items output_items a
    let w := waitLoop worker fuel 0 p.1
    if w.exited = false then ⟨w.adapter, p.2 ++ w.trace, none⟩
    else
      ⟨w.adapter,
       p.2 ++ w.trace ++
         [(Step.consume 0 (ninput_items 0), w.adapter),
          (Step.ret w.adapter.state.output_num_samples, w.adapter)],
       some ⟨ninput_items 0, w.adapter.state.output_num_samples⟩⟩

/-- One `general_work` call of a block lifetime: its arguments and what the
environment does during it. -/
structure Call where
  lock_ok : Bool
  worker : Nat → DsdState → DsdState
  fuel : Nat
  noutput_items : Int
  ninput_items : Nat → Int
  input_items : Nat → Nat
  output_items : Nat → Nat

/-- The call `c` made on the block `a`. -/
def Call.run (c : Call) (a : Adapter) : Outcome :=
  general_work c.lock_ok c.worker c.fuel c.noutput_items c.ninput_items
    c.input_items c.output_items a

/-- The scheduler calls `general_work` sequentially; a call that does not
return is the last one. -/
def runCalls : Adapter → List Call → Adapter × List Entry
  | a, [] => (a, [])
  | a, c :: cs =>
    match (c.run a).result with
    | none => ((c.run a).adapter, (c.run a).trace)
    | some _ =>
      ((runCalls (c.run a).adapter cs).1, (c.run a).trace ++ (runCalls (c.run a).adapter cs).2)

/-- The constructor followed by a sequence of `general_work` calls. -/
def lifetime (init : DsdState) (lock_ok : Bool) (buf : Nat) (cs : List Call) :
    Adapter × List Entry :=
  ((runCalls (howto_square_ff init lock_ok buf).1 cs).1,
   (howto_square_ff init lock_ok buf).2 ++ (runCalls (howto_square_ff init lock_ok buf).1 cs).2)

/-- Modelled from the spec: one cycle of the Decoder Worker Loop (the decoder
thread body `liveScanner` and its output path are not in
`howto_square_ff.cc`).  The decode function appends `burst` decoded samples
to the scratch buffer (`output_buffer`, fill count `output_offset`); the
worker transfers as many scratch samples as fit into the output view (up to
capacity minus cursor), advancing the cursor `output_num_samples`; the
leftover stays in the scratch buffer; `finish` says whether this cycle sets
the finished flag. -/
def workerCycle (burst : Nat) (finish : Bool) (s : DsdState) : DsdState :=
  let scratch := s.output_offset + burst
  let room := s.output_length - s.output_num_samples
  let moved := max 0 (min scratch room)
  { s with
    output_num_samples := s.output_num_samples + moved
    output_offset := scratch - moved
    output_finished := if finish then 1 else s.output_finished }

/-- Modelled from the spec: the decoder thread during one wait of the
scheduler thread runs zero or more cycles, each with its own burst size. -/
def workerDuringWait (cycles : List (Nat × Bool)) (s : DsdState) : DsdState :=
  cycles.foldl (fun t c => workerCycle c.1 c.2 t) s

/-! ## Sample data -/

/-- A `params.state` with every exchange field zero. -/
def zeroState : DsdState := ⟨0, 0, 0, 0, 0, 0, 0, 0, 0⟩

/-- A freshly constructed block whose lock of `output_mutex` succeeded. -/
def freshBlock : Adapter := (howto_square_ff zeroState true 4096).1

/-- A block whose read cursor was left at 5. -/
def usedBlock : Adapter := ⟨{ zeroState with input_offset := 5 }, false, true⟩

/-- A decoder thread that delivers 960 samples and finishes during the first wait. -/
def promptWorker : Nat → DsdState → DsdState :=
  fun _ s => { s with output_num_samples := 960, output_finished := 1 }

/-- A decoder thread that leaves the fields alone during the first wait (a
spurious wake-up) and finishes with 200 samples during the second. -/
def lateWorker : Nat → DsdState → DsdState :=
  fun k s => if k = 0 then s else { s with output_num_samples := 200, output_finished := 1 }

/-- An input-length vector with 5760 items on stream 0. -/
def sampleLengths : Nat → Int := fun _ => 5760

/-- Buffer addresses of the sample calls. -/
def sampleInputs : Nat → Nat := fun _ => 1000

/-- Buffer addresses of the sample calls. -/
def sampleOutputs : Nat → Nat := fun _ => 2000

/-- A call with 960 requested output items, 5760 input items, a successful
lock of `input_mutex` and a decoder thread that finishes during the first
wait. -/
def sampleCall : Call :=
  ⟨true, promptWorker, 3, 960, sampleLengths, sampleInputs, sampleOutputs⟩

/-- An entry that writes an input-view field while the scheduler thread does
not hold `input_mutex`. -/
def unlockedInputWrite (e : Entry) : Bool :=
  match e.1 with
  | Step.write f => f.isInputView && !e.2.holds_input_mutex
  | _ => false

/-- The entry of the write `output_finished = 0` in the sample lifetime. -/
def sampleOutputWrite : Entry :=
  (Step.write Field.output_finished,
   ⟨{ zeroState with output_samples := 2000, output_length := 960, output_buffer := 4096 },
    false, true⟩)

/-! ## The wait loop -/

theorem waitLoop_holds (worker : Nat → DsdState → DsdState) (fuel k : Nat) (a : Adapter) :
    (waitLoop worker fuel k a).adapter.holds_input_mutex = a.holds_input_mutex ∧
    (waitLoop worker fuel k a).adapter.holds_output_mutex = a.holds_output_mutex := by
  induction fuel generalizing k a with
  | zero => simp [waitLoop]
  | succ n ih =>
    unfold waitLoop
    split
    · simpa [Adapter.setState, wake, resetInputOffset] using ih (k + 1) _
    · simp

theorem waitLoop_trace (worker : Nat → DsdState → DsdState) (fuel k : Nat) (a : Adapter) :
    ∀ e ∈ (waitLoop worker fuel k a).trace,
      (e.1 = Step.wait .output_ready .output_mutex ∨ e.1 = Step.write .input_offset) ∧
      e.2.holds_input_mutex = a.holds_input_mutex ∧
      e.2.holds_output_mutex = a.holds_output_mutex := by
  induction fuel generalizing k a with
  | zero => simp [waitLoop]
  | succ n ih =>
    unfold waitLoop
    split
    · intro e he
      simp only [List.mem_cons] at he
      rcases he with rfl | rfl | he
      · simp [Adapter.setState, wake]
      · simp [Adapter.setState, wake, resetInputOffset]
      · simpa [Adapter.setState, wake, resetInputOffset] using ih (k + 1) _ e he
    · simp

theorem waitLoop_exited (worker : Nat → DsdState → DsdState) (fuel k : Nat) (a : Adapter) :
    (waitLoop worker fuel k a).exited = true →
      (waitLoop worker fuel k a).adapter.state.output_finished ≠ 0 := by
  induction fuel generalizing k a with
  | zero => simp [waitLoop]
  | succ n ih =>
    unfold waitLoop
    split
    · exact ih (k + 1) _
    · intro _; assumption

theorem waitLoop_waiting (worker : Nat → DsdState → DsdState) (fuel k : Nat) (a : Adapter)
    (h0 : a.state.output_finished = 0)
    (hw : ∀ e ∈ (waitLoop worker fuel k a).trace,
      e.1 = Step.wait .output_ready .output_mutex → e.2.state.output_finished = 0) :
    (waitLoop worker fuel k a).exited = false := by
  induction fuel generalizing k a with
  | zero => simp [waitLoop, h0]
  | succ n ih =>
    unfold waitLoop at hw ⊢
    rw [if_pos h0] at hw ⊢
    have h1 := hw (Step.wait .output_ready .output_mutex, wake worker k a)
      (List.mem_cons_self _ _) rfl
    exact ih (k + 1) _ (by simpa [Adapter.setState, resetInputOffset] using h1)
      (fun e he => hw e (List.mem_cons_of_mem _ (List.mem_cons_of_mem _ he)))

theorem waitLoop_more_fuel (worker : Nat → DsdState → DsdState) (fuel k j : Nat) (a : Adapter)
    (h : (waitLoop worker fuel k a).exited = true) :
    waitLoop worker (fuel + j) k a = waitLoop worker fuel k a := by
  induction fuel generalizing k a with
  | zero =>
    have hf : a.state.output_finished ≠ 0 := by simpa [waitLoop] using h
    cases j with
    | zero => rfl
    | succ j => simp [waitLoop, hf]
  | succ n ih =>
    rw [Nat.add_right_comm]
    unfold waitLoop at h ⊢
    split
    · rename_i h0
      rw [if_pos h0] at h
      rw [ih (k + 1) _ h]
    · rfl

theorem waitLoop_returns (worker : Nat → DsdState → DsdState) (d : Nat) :
    ∀ (fuel k : Nat) (a : Adapter),
      (∀ s, (worker (k + d) s).output_finished ≠ 0) → d < fuel →
      (waitLoop worker fuel k a).exited = true := by
  induction d with
  | zero =>
    intro fuel k a hw hd
    obtain ⟨n, rfl⟩ : ∃ n, fuel = n + 1 := ⟨fuel - 1, by omega⟩
    unfold waitLoop
    split
    · have hf : (worker k a.state).output_finished ≠ 0 := by simpa using hw a.state
      cases n with
      | zero => simpa [waitLoop, Adapter.setState, wake, resetInputOffset] using hf
      | succ m => simp [waitLoop, Adapter.setState, wake, resetInputOffset, hf]
    · rfl
  | succ d ih =>
    intro fuel k a hw hd
    obtain ⟨n, rfl⟩ : ∃ n, fuel = n + 1 := ⟨fuel - 1, by omega⟩
    unfold waitLoop
    split
    · exact ih n (k + 1) _ (by simpa [Nat.add_assoc, Nat.add_comm 1 d] using hw) (by omega)
    · rfl

theorem waitLoop_invariant (worker : Nat → DsdState → DsdState) (P : DsdState → Prop)
    (hw : ∀ k s, P s → P (worker k s))
    (ho : ∀ s, P s → P { s with input_offset := 0 })
    (fuel k : Nat) (a : Adapter) (ha : P a.state) :
    P (waitLoop worker fuel k a).adapter.state := by
  induction fuel generalizing k a with
  | zero => simpa [waitLoop] using ha
  | succ n ih =>
    unfold waitLoop
    split
    · exact ih (k + 1) _ (ho _ (hw k _ ha))
    · exact ha

/-! ## `general_work` -/

theorem general_work_guarded (lock_ok : Bool) (worker : Nat → DsdState → DsdState) (fuel : Nat)
    (noutput_items : Int) (ninput_items : Nat → Int)
    (input_items output_items : Nat → Nat) (a : Adapter) (h : noutput_items ≤ 160) :
    general_work lock_ok worker fuel noutput_items ninput_items input_items output_items a =
      ⟨a, [(Step.consume 0 0, a), (Step.ret 0, a)], some ⟨0, 0⟩⟩ := by
  simp [general_work, h]

theorem general_work_adapter (lock_ok : Bool) (worker : Nat → DsdState → DsdState) (fuel : Nat)
    (noutput_items : Int) (ninput_items : Nat → Int)
    (input_items output_items : Nat → Nat) (a : Adapter) (h : 160 < noutput_items) :
    (general_work lock_ok worker fuel noutput_items ninput_items input_items output_items
      a).adapter =
      (waitLoop worker fuel 0
        (publish lock_ok noutput_items ninput_items input_items output_items a).1).adapter := by
  have h1 : ¬ noutput_items ≤ 160 := by omega
  simp only [general_work, h1, if_false]
  split <;> rfl

theorem general_work_result (lock_ok : Bool) (worker : Nat → DsdState → DsdState) (fuel : Nat)
    (noutput_items : Int) (ninput_items : Nat → Int)
    (input_items output_items : Nat → Nat) (a : Adapter) (h : 160 < noutput_items) :
    (general_work lock_ok worker fuel noutput_items ninput_items input_items output_items
      a).result =
      if (waitLoop worker fuel 0
        (publish lock_ok noutput_items ninput_items input_items output_items a).1).exited = false
      then none
      else some ⟨ninput_items 0, (waitLoop worker fuel 0
        (publish lock_ok noutput_items ninput_items input_items output_items
          a).1).adapter.state.output_num_samples⟩ := by
  have h1 : ¬ noutput_items ≤ 160 := by omega
  simp only [general_work, h1, if_false]
  split <;> rfl

theorem general_work_trace (lock_ok : Bool) (worker : Nat → DsdState → DsdState) (fuel : Nat)
    (noutput_items : Int) (ninput_items : Nat → Int)
    (input_items output_items : Nat → Nat) (a : Adapter) (h : 160 < noutput_items) :
    ∃ tail : List Entry,
      (general_work lock_ok worker fuel noutput_items ninput_items input_items output_items
        a).trace =
        (publish lock_ok noutput_items ninput_items input_items output_items a).2 ++
          (waitLoop worker fuel 0
            (publish lock_ok noutput_items ninput_items input_items output_items a).1).trace ++
          tail ∧
      (∀ e ∈ tail, e.1.touchesExchange = false) := by
  have h1 : ¬ noutput_items ≤ 160 := by omega
  simp only [general_work, h1, if_false]
  split
  · exact ⟨[], by simp, by simp⟩
  · exact ⟨_, rfl, by simp [Step.touchesExchange]⟩

theorem publish_holds_output (lock_ok : Bool) (noutput_items : Int) (ninput_items : Nat → Int)
    (input_items output_items : Nat → Nat) (a : Adapter) :
    (publish lock_ok noutput_items ninput_items input_items output_items a).1.holds_output_mutex
      = a.holds_output_mutex ∧
    ∀ e ∈ (publish lock_ok noutput_items ninput_items input_items output_items a).2,
      e.2.holds_output_mutex = a.holds_output_mutex := by
  simp [publish, Adapter.setState]

theorem wrap32_of_fits (x : Int) (h1 : -2147483648 ≤ x) (h2 : x ≤ 2147483647) :
    wrap32 x = x := by
  unfold wrap32
  omega

theorem waitLoop_offset_writes (worker : Nat → DsdState → DsdState) (fuel k : Nat)
    (a : Adapter) :
    ∀ e ∈ (waitLoop worker fuel k a).trace,
      e.1 = Step.write .input_offset → e.2.state.input_offset = 0 := by
  induction fuel generalizing k a with
  | zero => simp [waitLoop]
  | succ n ih =>
    unfold waitLoop
    split
    · intro e he
      simp only [List.mem_cons] at he
      rcases he with rfl | rfl | he
      · simp
      · simp [Adapter.setState, resetInputOffset]
      · exact ih (k + 1) _ e he
    · simp

theorem general_work_mem_trace (lock_ok : Bool) (worker : Nat → DsdState → DsdState)
    (fuel : Nat) (noutput_items : Int) (ninput_items : Nat → Int)
    (input_items output_items : Nat → Nat) (a : Adapter) (h : 160 < noutput_items)
    (e : Entry)
    (he : e ∈ (general_work lock_ok worker fuel noutput_items ninput_items input_items
      output_items a).trace) :
    e ∈ (publish lock_ok noutput_items ninput_items input_items output_items a).2 ∨
    e ∈ (waitLoop worker fuel 0
      (publish lock_ok noutput_items ninput_items input_items output_items a).1).trace ∨
    e.1.touchesExchange = false := by
  obtain ⟨tail, ht, htail⟩ := general_work_trace lock_ok worker fuel noutput_items
    ninput_items input_items output_items a h
  rw [ht] at he
  simp only [List.mem_append] at he
  rcases he with (he | he) | he
  · exact Or.inl he
  · exact Or.inr (Or.inl he)
  · exact Or.inr (Or.inr (htail e he))

theorem general_work_returns (lock_ok : Bool) (worker : Nat → DsdState → DsdState)
    (fuel d : Nat) (noutput_items : Int) (ninput_items : Nat → Int)
    (input_items output_items : Nat → Nat) (a : Adapter)
    (hw : ∀ s, (worker d s).output_finished ≠ 0) (hd : d < fuel) :
    (general_work lock_ok worker fuel noutput_items ninput_items input_items output_items
      a).result ≠ none := by
  by_cases h : noutput_items ≤ 160
  · simp [general_work_guarded _ _ _ _ _ _ _ _ h]
  · rw [general_work_result _ _ _ _ _ _ _ _ (by omega),
      waitLoop_returns worker d fuel 0 _ (by simpa using hw) hd]
    simp

theorem general_work_returned (lock_ok : Bool) (worker : Nat → DsdState → DsdState)
    (fuel : Nat) (noutput_items : Int) (ninput_items : Nat → Int)
    (input_items output_items : Nat → Nat) (a : Adapter) (r : WorkResult)
    (h : 160 < noutput_items)
    (hr : (general_work lock_ok worker fuel noutput_items ninput_items input_items
      output_items a).result = some r) :
    (waitLoop worker fuel 0
      (publish lock_ok noutput_items ninput_items input_items output_items a).1).exited
      = true ∧
    r = ⟨ninput_items 0, (waitLoop worker fuel 0
      (publish lock_ok noutput_items ninput_items input_items output_items
        a).1).adapter.state.output_num_samples⟩ := by
  by_cases hx : (waitLoop worker fuel 0
      (publish lock_ok noutput_items ninput_items input_items output_items a).1).exited = false
  · rw [general_work_result _ _ _ _ _ _ _ _ h, if_pos hx] at hr
    cases hr
  · rw [general_work_result _ _ _ _ _ _ _ _ h, if_neg hx] at hr
    simp only [Option.some.injEq] at hr
    exact ⟨by simpa using hx, hr.symm⟩

theorem general_work_more_fuel (lock_ok : Bool) (worker : Nat → DsdState → DsdState)
    (fuel j : Nat) (noutput_items : Int) (ninput_items : Nat → Int)
    (input_items output_items : Nat → Nat) (a : Adapter)
    (hr : (general_work lock_ok worker fuel noutput_items ninput_items input_items
      output_items a).result ≠ none) :
    general_work lock_ok worker (fuel + j) noutput_items ninput_items input_items
      output_items a =
    general_work lock_ok worker fuel noutput_items ninput_items input_items output_items a := by
  by_cases h : noutput_items ≤ 160
  · rw [general_work_guarded _ _ _ _ _ _ _ _ h, general_work_guarded _ _ _ _ _ _ _ _ h]
  · have hx : (waitLoop worker fuel 0
        (publish lock_ok noutput_items ninput_items input_items output_items a).1).exited
        = true := by
      by_contra hx
      rw [general_work_result _ _ _ _ _ _ _ _ (by omega)] at hr
      simp [hx] at hr
    simp only [general_work, h, if_false, waitLoop_more_fuel _ _ _ j _ hx]

/-- The cursor is returned as the decoder thread left it: `general_work`
itself does not compare it with `noutput_items`. -/
theorem general_work_returns_cursor_unclamped :
    (general_work true promptWorker 3 200 sampleLengths sampleInputs sampleOutputs
      freshBlock).result = some ⟨5760, 960⟩ := by
  decide

theorem workerCycle_capacity (burst : Nat) (finish : Bool) (s : DsdState)
    (h : s.output_num_samples ≤ s.output_length) :
    (workerCycle burst finish s).output_length = s.output_length ∧
    (workerCycle burst finish s).output_num_samples ≤ s.output_length := by
  simp only [workerCycle, true_and]
  omega

theorem workerCycle_conserves (burst : Nat) (finish : Bool) (s : DsdState) :
    (workerCycle burst finish s).output_num_samples + (workerCycle burst finish s).output_offset
      = s.output_num_samples + s.output_offset + burst := by
  simp only [workerCycle]
  omega

theorem workerDuringWait_capacity (cycles : List (Nat × Bool)) (s : DsdState) (n : Int)
    (h : s.output_length = n ∧ s.output_num_samples ≤ n) :
    (workerDuringWait cycles s).output_length = n ∧
    (workerDuringWait cycles s).output_num_samples ≤ n := by
  induction cycles generalizing s with
  | nil => simpa [workerDuringWait] using h
  | cons c cs ih =>
    have hc := workerCycle_capacity c.1 c.2 s (by omega)
    have := ih (workerCycle c.1 c.2 s) ⟨by omega, by omega⟩
    simpa [workerDuringWait] using this

theorem signal_not_in_waitLoop (worker : Nat → DsdState → DsdState) (fuel k : Nat)
    (a : Adapter) (e : Entry) (he : e ∈ (waitLoop worker fuel k a).trace) :
    e.1 ≠ Step.signal .input_ready := by
  rcases (waitLoop_trace worker fuel k a e he).1 with h | h <;> simp [h]

theorem publish_signal (lock_ok : Bool) (noutput_items : Int) (ninput_items : Nat → Int)
    (input_items output_items : Nat → Nat) (a : Adapter) :
    ∃ e ∈ (publish lock_ok noutput_items ninput_items input_items output_items a).2,
      e.1 = Step.signal .input_ready := by
  simp [publish]

/-- The code signals `input_ready` exactly in the calls with
`noutput_items > 160`. -/
theorem general_work_signal_iff (lock_ok : Bool) (worker : Nat → DsdState → DsdState)
    (fuel : Nat) (noutput_items : Int) (ninput_items : Nat → Int)
    (input_items output_items : Nat → Nat) (a : Adapter) :
    (∃ e ∈ (general_work lock_ok worker fuel noutput_items ninput_items input_items
      output_items a).trace, e.1 = Step.signal .input_ready) ↔ 160 < noutput_items := by
  constructor
  · rintro ⟨e, he, hs⟩
    by_contra h
    rw [general_work_guarded _ _ _ _ _ _ _ _ (by omega)] at he
    simp only [List.mem_cons, List.mem_singleton, List.not_mem_nil, or_false] at he
    rcases he with rfl | rfl <;> simp at hs
  · intro h
    obtain ⟨tail, ht, -⟩ := general_work_trace lock_ok worker fuel noutput_items
      ninput_items input_items output_items a h
    obtain ⟨e, he, hs⟩ := publish_signal lock_ok noutput_items ninput_items input_items
      output_items a
    exact ⟨e, by rw [ht]; simp [he], hs⟩

theorem publish_finished (lock_ok : Bool) (noutput_items : Int) (ninput_items : Nat → Int)
    (input_items output_items : Nat → Nat) (a : Adapter) :
    (publish lock_ok noutput_items ninput_items input_items output_items
      a).1.state.output_finished = 0 := rfl

theorem publish_no_wait (lock_ok : Bool) (noutput_items : Int) (ninput_items : Nat → Int)
    (input_items output_items : Nat → Nat) (a : Adapter) :
    ∀ e ∈ (publish lock_ok noutput_items ninput_items input_items output_items a).2,
      e.1 ≠ Step.wait .output_ready .output_mutex ∧ e.1 ≠ Step.unlock .output_mutex := by
  simp [publish]

theorem general_work_holds_output (lock_ok : Bool) (worker : Nat → DsdState → DsdState)
    (fuel : Nat) (noutput_items : Int) (ninput_items : Nat → Int)
    (input_items output_items : Nat → Nat) (a : Adapter) :
    (general_work lock_ok worker fuel noutput_items ninput_items input_items output_items
      a).adapter.holds_output_mutex = a.holds_output_mutex ∧
    ∀ e ∈ (general_work lock_ok worker fuel noutput_items ninput_items input_items
      output_items a).trace,
      e.2.holds_output_mutex = a.holds_output_mutex ∧ e.1 ≠ Step.unlock .output_mutex := by
  by_cases h : noutput_items ≤ 160
  · rw [general_work_guarded _ _ _ _ _ _ _ _ h]
    simp
  · have h2 : 160 < noutput_items := by omega
    have hp := publish_holds_output lock_ok noutput_items ninput_items input_items
      output_items a
    have hl := waitLoop_holds worker fuel 0
      (publish lock_ok noutput_items ninput_items input_items output_items a).1
    have hadapter : (general_work lock_ok worker fuel noutput_items ninput_items input_items
        output_items a).adapter.holds_output_mutex = a.holds_output_mutex := by
      rw [general_work_adapter _ _ _ _ _ _ _ _ h2, hl.2, hp.1]
    refine ⟨hadapter, ?_⟩
    intro e he
    simp only [general_work, h, if_false] at he
    split at he
    · simp only [List.mem_append] at he
      rcases he with he | he
      · exact ⟨hp.2 e he, (publish_no_wait _ _ _ _ _ _ e he).2⟩
      · have ht := waitLoop_trace worker fuel 0 _ e he
        refine ⟨by rw [ht.2.2, hp.1], ?_⟩
        rcases ht.1 with h1 | h1 <;> simp [h1]
    · simp only [List.mem_append, List.mem_cons, List.mem_singleton, List.not_mem_nil,
        or_false] at he
      rcases he with (he | he) | he
      · exact ⟨hp.2 e he, (publish_no_wait _ _ _ _ _ _ e he).2⟩
      · have ht := waitLoop_trace worker fuel 0 _ e he
        refine ⟨by rw [ht.2.2, hp.1], ?_⟩
        rcases ht.1 with h1 | h1 <;> simp [h1]
      · rcases he with rfl | rfl
        · exact ⟨by simp only; rw [hl.2, hp.1], by simp⟩
        · exact ⟨by simp only; rw [hl.2, hp.1], by simp⟩

theorem runCalls_holds_output (cs : List Call) (a : Adapter) :
    (runCalls a cs).1.holds_output_mutex = a.holds_output_mutex ∧
    ∀ e ∈ (runCalls a cs).2,
      e.2.holds_output_mutex = a.holds_output_mutex ∧ e.1 ≠ Step.unlock .output_mutex := by
  induction cs generalizing a with
  | nil => simp [runCalls]
  | cons c cs ih =>
    have hc := general_work_holds_output c.lock_ok c.worker c.fuel c.noutput_items
      c.ninput_items c.input_items c.output_items a
    unfold runCalls
    split
    · exact hc
    · have hi := ih (c.run a).adapter
      refine ⟨by rw [hi.1]; exact hc.1, ?_⟩
      intro e he
      simp only [List.mem_append] at he
      rcases he with he | he
      · exact hc.2 e he
      · have := hi.2 e he
        exact ⟨by rw [this.1]; exact hc.1, this.2⟩

theorem general_work_input_writes (lock_ok : Bool) (worker : Nat → DsdState → DsdState)
    (fuel : Nat) (noutput_items : Int) (ninput_items : Nat → Int)
    (input_items output_items : Nat → Nat) (a : Adapter) :
    ∀ e ∈ (general_work lock_ok worker fuel noutput_items ninput_items input_items
      output_items a).trace,
      ((e.1 = Step.write .input_samples ∨ e.1 = Step.write .input_length) →
        e.2.holds_input_mutex = (a.holds_input_mutex || lock_ok)) ∧
      (e.1 = Step.write .input_offset → e.2.holds_input_mutex = false) := by
  intro e he
  by_cases h : noutput_items ≤ 160
  · rw [general_work_guarded _ _ _ _ _ _ _ _ h] at he
    simp only [List.mem_cons, List.mem_singleton, List.not_mem_nil, or_false] at he
    rcases he with rfl | rfl <;> simp
  · rcases general_work_mem_trace _ _ _ _ _ _ _ _ (by omega) e he with hp | hl | hx
    · simp only [publish, List.mem_cons, List.mem_singleton, List.not_mem_nil, or_false] at hp
      rcases hp with rfl | rfl | rfl | rfl | rfl | rfl | rfl | rfl | rfl <;>
        simp [Adapter.setState]
    · have ht := waitLoop_trace worker fuel 0 _ e hl
      constructor
      · intro hs
        rcases ht.1 with h1 | h1 <;> rcases hs with h2 | h2 <;> rw [h1] at h2 <;> cases h2
      · intro _
        rw [ht.2.1]
        rfl
    · constructor
      · intro hs
        rcases hs with h2 | h2 <;> rw [h2] at hx <;> simp [Step.touchesExchange] at hx
      · intro h2
        rw [h2] at hx
        simp [Step.touchesExchange] at hx

theorem runCalls_input_writes (cs : List Call) (a : Adapter)
    (ha : a.holds_input_mutex = false) (hcs : ∀ c ∈ cs, c.lock_ok = true) :
    (runCalls a cs).1.holds_input_mutex = false ∧
    ∀ e ∈ (runCalls a cs).2,
      ((e.1 = Step.write .input_samples ∨ e.1 = Step.write .input_length) →
        e.2.holds_input_mutex = true) ∧
      (e.1 = Step.write .input_offset → e.2.holds_input_mutex = false) := by
  induction cs generalizing a with
  | nil => simpa [runCalls] using ha
  | cons c cs ih =>
    have hc : ∀ e ∈ (c.run a).trace,
        ((e.1 = Step.write .input_samples ∨ e.1 = Step.write .input_length) →
          e.2.holds_input_mutex = true) ∧
        (e.1 = Step.write .input_offset → e.2.holds_input_mutex = false) := by
      intro e he
      have := general_work_input_writes c.lock_ok c.worker c.fuel c.noutput_items
        c.ninput_items c.input_items c.output_items a e he
      rw [hcs c (List.mem_cons_self _ _), ha] at this
      simpa using this
    have hexit : (c.run a).adapter.holds_input_mutex = false := by
      unfold Call.run
      by_cases h : c.noutput_items ≤ 160
      · rw [general_work_guarded _ _ _ _ _ _ _ _ h]
        exact ha
      · rw [general_work_adapter _ _ _ _ _ _ _ _ (by omega), (waitLoop_holds _ _ _ _).1]
        rfl
    have hi := ih (c.run a).adapter hexit (fun d hd => hcs d (List.mem_cons_of_mem _ hd))
    unfold runCalls
    split
    · exact ⟨hexit, fun e he => hc e he⟩
    · refine ⟨hi.1, ?_⟩
      intro e he
      simp only [List.mem_append] at he
      rcases he with he | he
      · exact hc e he
      · exact hi.2 e he

/-! ## The claims -/

/-- C1: a call of `general_work` with `noutput_items < 160` reports
`consume (0, 0)`, returns 0, leaves the block (exchange fields and mutex
ownership) exactly as it was, and executes no step that touches the exchange
state: no field write, no lock or unlock, no signal. -/
theorem general_work_below_minimum (lock_ok : Bool) (worker : Nat → DsdState → DsdState)
    (fuel : Nat) (noutput_items : Int) (ninput_items : Nat → Int)
    (input_items output_items : Nat → Nat) (a : Adapter) (h : noutput_items < 160) :
    (general_work lock_ok worker fuel noutput_items ninput_items input_items output_items
      a).result = some ⟨0, 0⟩ ∧
    (general_work lock_ok worker fuel noutput_items ninput_items input_items output_items
      a).adapter = a ∧
    (general_work lock_ok worker fuel noutput_items ninput_items input_items output_items
      a).trace = [(Step.consume 0 0, a), (Step.ret 0, a)] ∧
    ∀ e ∈ (general_work lock_ok worker fuel noutput_items ninput_items input_items
      output_items a).trace, e.1.touchesExchange = false ∧ e.2 = a := by
  rw [general_work_guarded _ _ _ _ _ _ _ _ (by omega)]
  simp [Step.touchesExchange]

theorem general_work_below_minimum_witness :
    (100 : Int) < 160 ∧
    (general_work true promptWorker 3 100 sampleLengths sampleInputs sampleOutputs
      usedBlock).result = some ⟨0, 0⟩ ∧
    (general_work true promptWorker 3 100 sampleLengths sampleInputs sampleOutputs
      usedBlock).adapter = usedBlock :=
  ⟨by decide,
   (general_work_below_minimum true promptWorker 3 100 sampleLengths sampleInputs
      sampleOutputs usedBlock (by decide)).1,
   (general_work_below_minimum true promptWorker 3 100 sampleLengths sampleInputs
      sampleOutputs usedBlock (by decide)).2.1⟩

/-- C4 (counterexample): at `noutput_items = 357913942` the product
`noutput_items * 6 = 2147483652` does not fit a 32-bit `int`; the stored
value is `-2147483644`, which is not `n * 6`, is below `n * 6`, and is below
the value stored for the smaller request 357913941. -/
theorem forecast_overflow :
    (forecast 357913942 (fun _ => 0) freshBlock).1 0 = -2147483644 ∧
    (forecast 357913942 (fun _ => 0) freshBlock).1 0 ≠ 357913942 * 6 ∧
    ¬ ((forecast 357913942 (fun _ => 0) freshBlock).1 0 ≥ 357913942 * 6) ∧
    (forecast 357913941 (fun _ => 0) freshBlock).1 0 = 2147483646 ∧
    ¬ ((forecast 357913941 (fun _ => 0) freshBlock).1 0 ≤
        (forecast 357913942 (fun _ => 0) freshBlock).1 0) := by
  simp [forecast, wrap32]

/-- C4 (amended): for every requested output count `n` whose product `n * 6`
fits a 32-bit `int`, `forecast` stores exactly `n * 6` as the required input
count of stream 0 and leaves the other entries alone; on that range the
stored value is monotonic non-decreasing in `n`; the block is returned
unchanged and the stored vector does not depend on the block. -/
theorem forecast_exact (n : Int) (req : Nat → Int) (a : Adapter)
    (h1 : -2147483648 ≤ n * 6) (h2 : n * 6 ≤ 2147483647) :
    (forecast n req a).1 0 = n * 6 ∧
    (∀ i, i ≠ 0 → (forecast n req a).1 i = req i) ∧
    (∀ m : Int, -2147483648 ≤ m * 6 → m ≤ n →
      (forecast m req a).1 0 ≤ (forecast n req a).1 0) ∧
    (forecast n req a).2 = a ∧
    (∀ b : Adapter, (forecast n req b).1 = (forecast n req a).1) := by
  refine ⟨?_, ?_, ?_, rfl, fun _ => rfl⟩
  · simp [forecast, wrap32_of_fits _ h1 h2]
  · intro i hi
    simp [forecast, hi]
  · intro m hm hmn
    simp only [forecast, Function.update_same]
    rw [wrap32_of_fits _ h1 h2, wrap32_of_fits _ hm (by omega)]
    omega

theorem forecast_exact_witness :
    (-2147483648 : Int) ≤ 960 * 6 ∧ (960 : Int) * 6 ≤ 2147483647 ∧
    (forecast 960 (fun _ => 0) freshBlock).1 0 = 960 * 6 :=
  ⟨by decide, by decide,
   (forecast_exact 960 (fun _ => 0) freshBlock (by decide) (by decide)).1⟩

/-- C2: a call of `general_work` that passes the size test and returns
reports `consume (0, ninput_items[0])`, the whole input window, and returns
the write cursor `output_num_samples` that the exchange state holds when the
wait loop exits; these two steps end the call. -/
theorem general_work_reports (lock_ok : Bool) (worker : Nat → DsdState → DsdState)
    (fuel : Nat) (noutput_items : Int) (ninput_items : Nat → Int)
    (input_items output_items : Nat → Nat) (a : Adapter) (r : WorkResult)
    (h : 160 < noutput_items)
    (hr : (general_work lock_ok worker fuel noutput_items ninput_items input_items
      output_items a).result = some r) :
    r.consumed = ninput_items 0 ∧
    (waitLoop worker fuel 0
      (publish lock_ok noutput_items ninput_items input_items output_items a).1).exited
      = true ∧
    r.produced = (waitLoop worker fuel 0
      (publish lock_ok noutput_items ninput_items input_items output_items
        a).1).adapter.state.output_num_samples ∧
    (general_work lock_ok worker fuel noutput_items ninput_items input_items output_items
      a).adapter = (waitLoop worker fuel 0
      (publish lock_ok noutput_items ninput_items input_items output_items a).1).adapter ∧
    ∃ steps : List Entry,
      (general_work lock_ok worker fuel noutput_items ninput_items input_items output_items
        a).trace = steps ++
        [(Step.consume 0 (ninput_items 0),
          (general_work lock_ok worker fuel noutput_items ninput_items input_items
            output_items a).adapter),
         (Step.ret r.produced,
          (general_work lock_ok worker fuel noutput_items ninput_items input_items
            output_items a).adapter)] := by
  have h1 : ¬ noutput_items ≤ 160 := by omega
  obtain ⟨hx, rfl⟩ := general_work_returned _ _ _ _ _ _ _ _ r h hr
  refine ⟨rfl, hx, rfl, general_work_adapter _ _ _ _ _ _ _ _ h, ?_⟩
  rw [general_work_adapter _ _ _ _ _ _ _ _ h]
  simp only [general_work, h1, if_false, hx]
  exact ⟨_, rfl⟩

theorem general_work_reports_witness :
    (160 : Int) < 960 ∧
    (general_work true promptWorker 3 960 sampleLengths sampleInputs sampleOutputs
      freshBlock).result = some ⟨5760, 960⟩ ∧
    (5760 : Int) = sampleLengths 0 :=
  ⟨by decide, by decide,
   (general_work_reports true promptWorker 3 960 sampleLengths sampleInputs sampleOutputs
      freshBlock ⟨5760, 960⟩ (by decide) (by decide)).1⟩

/-- C3: with the decoder thread behaving as the Decoder Worker Loop of the
specification (any number of cycles during each wait, each with any burst
size, bursts larger than the capacity included, each free to set the
finished flag or not), a call of `general_work` that returns has
`produced = 0` on the zero-progress branch and `produced ≤ noutput_items`
otherwise; so `produced ≤ noutput_items` for every capacity
`noutput_items ≥ 0`. -/
theorem general_work_within_capacity (lock_ok : Bool) (cycles : Nat → List (Nat × Bool))
    (fuel : Nat) (noutput_items : Int) (ninput_items : Nat → Int)
    (input_items output_items : Nat → Nat) (a : Adapter) (r : WorkResult)
    (hr : (general_work lock_ok (fun k => workerDuringWait (cycles k)) fuel noutput_items
      ninput_items input_items output_items a).result = some r) :
    (noutput_items ≤ 160 → r.produced = 0) ∧
    (160 < noutput_items → r.produced ≤ noutput_items) ∧
    (0 ≤ noutput_items → r.produced ≤ noutput_items) := by
  by_cases h : noutput_items ≤ 160
  · rw [general_work_guarded _ _ _ _ _ _ _ _ h] at hr
    simp only [Option.some.injEq] at hr
    subst hr
    exact ⟨fun _ => rfl, fun h2 => absurd h (by omega), fun h0 => h0⟩
  · have h2 : 160 < noutput_items := by omega
    have hp : r.produced = (waitLoop (fun k => workerDuringWait (cycles k)) fuel 0
        (publish lock_ok noutput_items ninput_items input_items output_items
          a).1).adapter.state.output_num_samples := by
      rw [(general_work_returned _ _ _ _ _ _ _ _ r h2 hr).2]
    have hinv := waitLoop_invariant (fun k => workerDuringWait (cycles k))
      (fun s => s.output_length = noutput_items ∧ s.output_num_samples ≤ noutput_items)
      (fun k s hs => workerDuringWait_capacity (cycles k) s noutput_items hs)
      (fun s hs => hs) fuel 0
      (publish lock_ok noutput_items ninput_items input_items output_items a).1
      (by simp [publish, Adapter.setState]; omega)
    have hle : r.produced ≤ noutput_items := by
      rw [hp]
      exact hinv.2
    exact ⟨fun h3 => absurd h3 h, fun _ => hle, fun _ => hle⟩

theorem general_work_within_capacity_witness :
    (general_work true (fun k => workerDuringWait ([[(5000, false), (70000, true)]].getD k []))
      3 960 sampleLengths sampleInputs sampleOutputs freshBlock).result = some ⟨5760, 960⟩ ∧
    (160 : Int) < 960 ∧ (960 : Int) ≤ 960 :=
  ⟨by decide, by decide,
   (general_work_within_capacity true
      (fun k => [[(5000, false), (70000, true)]].getD k []) 3 960 sampleLengths sampleInputs
      sampleOutputs freshBlock ⟨5760, 960⟩ (by decide)).2.1 (by decide)⟩

/-- C5: in every call of `general_work` that passes the size test, the first
nine steps are the four output-view writes, the lock of `input_mutex`, the
two input-view writes, the signal on `input_ready` and the unlock, in this
order; the signal is executed, and at the signal step the output view is
bound to the current invocation: `output_samples = output_items[0]`,
`output_length = noutput_items`, `output_num_samples = 0`,
`output_finished = 0`. -/
theorem signal_after_output_view (lock_ok : Bool) (worker : Nat → DsdState → DsdState)
    (fuel : Nat) (noutput_items : Int) (ninput_items : Nat → Int)
    (input_items output_items : Nat → Nat) (a : Adapter) (h : 160 < noutput_items) :
    (((general_work lock_ok worker fuel noutput_items ninput_items input_items output_items
      a).trace.take 9).map Prod.fst =
      [Step.write .output_samples, Step.write .output_num_samples,
       Step.write .output_length, Step.write .output_finished,
       Step.lock .input_mutex, Step.write .input_samples,
       Step.write .input_length, Step.signal .input_ready,
       Step.unlock .input_mutex]) ∧
    (∃ e ∈ (general_work lock_ok worker fuel noutput_items ninput_items input_items
      output_items a).trace, e.1 = Step.signal .input_ready) ∧
    ∀ e ∈ (general_work lock_ok worker fuel noutput_items ninput_items input_items
      output_items a).trace, e.1 = Step.signal .input_ready →
      e.2.state.output_samples = output_items 0 ∧
      e.2.state.output_length = noutput_items ∧
      e.2.state.output_num_samples = 0 ∧
      e.2.state.output_finished = 0 := by
  obtain ⟨tail, ht, -⟩ := general_work_trace lock_ok worker fuel noutput_items
    ninput_items input_items output_items a h
  refine ⟨?_, ?_, ?_⟩
  · rw [ht]
    simp [publish]
  · rw [ht]
    obtain ⟨e, he, hs⟩ := publish_signal lock_ok noutput_items ninput_items input_items
      output_items a
    exact ⟨e, by simp [he], hs⟩
  · intro e he hs
    rcases general_work_mem_trace _ _ _ _ _ _ _ _ h e he with hp | hl | hx
    · simp only [publish, List.mem_cons, List.mem_singleton, List.not_mem_nil, or_false] at hp
      rcases hp with rfl | rfl | rfl | rfl | rfl | rfl | rfl | rfl | rfl <;>
        simp [Adapter.setState] at hs ⊢
    · exact absurd hs (signal_not_in_waitLoop _ _ _ _ e hl)
    · rw [hs] at hx
      simp [Step.touchesExchange] at hx

theorem signal_after_output_view_witness :
    (160 : Int) < 960 ∧
    ∃ e ∈ (general_work true promptWorker 3 960 sampleLengths sampleInputs sampleOutputs
      usedBlock).trace, e.1 = Step.signal .input_ready :=
  ⟨by decide,
   (signal_after_output_view true promptWorker 3 960 sampleLengths sampleInputs
      sampleOutputs usedBlock (by decide)).2.1⟩

/-- C6 (counterexample): on a block whose read cursor was left at 5, the
call `general_work (960, ...)` reaches the signal on `input_ready` (step 7)
with `input_offset` still 5, not 0; and when `pthread_mutex_lock` of
`input_mutex` fails the signal is sent without the mutex. -/
theorem signal_with_stale_input_offset :
    ((general_work true promptWorker 3 960 sampleLengths sampleInputs sampleOutputs
      usedBlock).trace[7]?).map (fun e => (e.1, e.2.state.input_offset, e.2.holds_input_mutex))
      = some (Step.signal .input_ready, 5, true) ∧
    ((general_work false promptWorker 3 960 sampleLengths sampleInputs sampleOutputs
      usedBlock).trace[7]?).map (fun e => (e.1, e.2.state.input_offset, e.2.holds_input_mutex))
      = some (Step.signal .input_ready, 5, false) := by
  decide

/-- C6 (amended): in every call of `general_work` that passes the size test,
the signal on `input_ready` is executed, and at that step
`input_samples = input_items[0]` and `input_length = ninput_items[0]`, the
read cursor `input_offset` still has the value it had before the call, and
`input_mutex` is held exactly when it was held already or its lock call
succeeded.  Every write of `input_offset` in the call stores 0, and none of
them is among the first nine steps (they follow the unlock, inside the wait
loop). -/
theorem signal_input_view (lock_ok : Bool) (worker : Nat → DsdState → DsdState)
    (fuel : Nat) (noutput_items : Int) (ninput_items : Nat → Int)
    (input_items output_items : Nat → Nat) (a : Adapter) (h : 160 < noutput_items) :
    (∃ e ∈ (general_work lock_ok worker fuel noutput_items ninput_items input_items
      output_items a).trace, e.1 = Step.signal .input_ready) ∧
    (∀ e ∈ (general_work lock_ok worker fuel noutput_items ninput_items input_items
      output_items a).trace, e.1 = Step.signal .input_ready →
      e.2.state.input_samples = input_items 0 ∧
      e.2.state.input_length = ninput_items 0 ∧
      e.2.state.input_offset = a.state.input_offset ∧
      e.2.holds_input_mutex = (a.holds_input_mutex || lock_ok)) ∧
    (∀ e ∈ (general_work lock_ok worker fuel noutput_items ninput_items input_items
      output_items a).trace, e.1 = Step.write .input_offset →
      e.2.state.input_offset = 0) ∧
    (∀ e ∈ (general_work lock_ok worker fuel noutput_items ninput_items input_items
      output_items a).trace.take 9, e.1 ≠ Step.write .input_offset) := by
  obtain ⟨tail, ht, -⟩ := general_work_trace lock_ok worker fuel noutput_items
    ninput_items input_items output_items a h
  refine ⟨?_, ?_, ?_, ?_⟩
  · rw [ht]
    obtain ⟨e, he, hs⟩ := publish_signal lock_ok noutput_items ninput_items input_items
      output_items a
    exact ⟨e, by simp [he], hs⟩
  · intro e he hs
    rcases general_work_mem_trace _ _ _ _ _ _ _ _ h e he with hp | hl | hx
    · simp only [publish, List.mem_cons, List.mem_singleton, List.not_mem_nil, or_false] at hp
      rcases hp with rfl | rfl | rfl | rfl | rfl | rfl | rfl | rfl | rfl <;>
        simp [Adapter.setState] at hs ⊢
    · exact absurd hs (signal_not_in_waitLoop _ _ _ _ e hl)
    · rw [hs] at hx
      simp [Step.touchesExchange] at hx
  · intro e he hs
    rcases general_work_mem_trace _ _ _ _ _ _ _ _ h e he with hp | hl | hx
    · simp only [publish, List.mem_cons, List.mem_singleton, List.not_mem_nil, or_false] at hp
      rcases hp with rfl | rfl | rfl | rfl | rfl | rfl | rfl | rfl | rfl <;>
        simp at hs
    · exact waitLoop_offset_writes _ _ _ _ e hl hs
    · rw [hs] at hx
      simp [Step.touchesExchange] at hx
  · rw [ht]
    intro e he
    simp only [publish, List.append_assoc, List.cons_append, List.nil_append, List.take_succ_cons,
      List.take_zero, List.mem_cons, List.mem_singleton, List.not_mem_nil, or_false] at he
    rcases he with rfl | rfl | rfl | rfl | rfl | rfl | rfl | rfl | rfl <;> simp

theorem signal_input_view_witness :
    (160 : Int) < 960 ∧
    ∃ e ∈ (general_work true promptWorker 3 960 sampleLengths sampleInputs sampleOutputs
      usedBlock).trace, e.1 = Step.signal .input_ready :=
  ⟨by decide,
   (signal_input_view true promptWorker 3 960 sampleLengths sampleInputs
      sampleOutputs usedBlock (by decide)).1⟩

/-- C7: a call of `general_work` that passes the size test returns only
with `output_finished` non-zero; as long as every wake-up from
`pthread_cond_wait` so far (spurious or not, whatever the decoder thread did
to the exchange state meanwhile) found `output_finished` still 0, the call
has not returned. -/
theorem general_work_waits_for_finished (lock_ok : Bool)
    (worker : Nat → DsdState → DsdState) (fuel : Nat) (noutput_items : Int)
    (ninput_items : Nat → Int) (input_items output_items : Nat → Nat) (a : Adapter)
    (h : 160 < noutput_items) :
    ((general_work lock_ok worker fuel noutput_items ninput_items input_items output_items
        a).result ≠ none →
      (general_work lock_ok worker fuel noutput_items ninput_items input_items output_items
        a).adapter.state.output_finished ≠ 0) ∧
    ((∀ e ∈ (general_work lock_ok worker fuel noutput_items ninput_items input_items
        output_items a).trace,
        e.1 = Step.wait .output_ready .output_mutex → e.2.state.output_finished = 0) →
      (general_work lock_ok worker fuel noutput_items ninput_items input_items output_items
        a).result = none) := by
  obtain ⟨tail, ht, -⟩ := general_work_trace lock_ok worker fuel noutput_items
    ninput_items input_items output_items a h
  constructor
  · intro hr
    rw [general_work_result _ _ _ _ _ _ _ _ h] at hr
    rw [general_work_adapter _ _ _ _ _ _ _ _ h]
    apply waitLoop_exited
    by_contra hx
    simp [hx] at hr
  · intro hw
    rw [general_work_result _ _ _ _ _ _ _ _ h, if_pos]
    apply waitLoop_waiting _ _ _ _ (publish_finished _ _ _ _ _ _)
    intro e he
    apply hw
    rw [ht]
    simp [he]

theorem general_work_waits_for_finished_witness :
    (160 : Int) < 960 ∧
    (general_work true lateWorker 1 960 sampleLengths sampleInputs sampleOutputs
      freshBlock).result = none ∧
    (general_work true lateWorker 2 960 sampleLengths sampleInputs sampleOutputs
      freshBlock).result = some ⟨5760, 200⟩ ∧
    (general_work true lateWorker 2 960 sampleLengths sampleInputs sampleOutputs
      freshBlock).adapter.state.output_finished ≠ 0 :=
  ⟨by decide,
   (general_work_waits_for_finished true lateWorker 1 960 sampleLengths sampleInputs
      sampleOutputs freshBlock (by decide)).2 (by decide),
   by decide,
   (general_work_waits_for_finished true lateWorker 2 960 sampleLengths sampleInputs
      sampleOutputs freshBlock (by decide)).1 (by decide)⟩

/-- C8 (counterexample): in the lifetime made of the constructor and one
call of `general_work`, two writes to input-view fields are executed without
`input_mutex`: the constructor's `input_length = 0` and the wait loop's
`input_offset = 0`. -/
theorem input_view_written_without_mutex :
    ((lifetime zeroState true 4096 [sampleCall]).2.filter unlockedInputWrite).map Prod.fst =
      [Step.write .input_length, Step.write .input_offset] := by
  decide

/-- C8 (amended): the constructor executes its steps, the write
`input_length = 0` among them and before the decoder thread is spawned,
without holding `input_mutex`.  In the `general_work` calls that follow, if
every lock of `input_mutex` succeeds, each write to `input_samples` or
`input_length` is executed while the scheduler thread holds `input_mutex`,
and each write to `input_offset` (the reset in the wait loop) is executed
after `input_mutex` has been released. -/
theorem input_view_write_discipline (init : DsdState) (ctor_lock_ok : Bool) (buf : Nat)
    (cs : List Call) (hcs : ∀ c ∈ cs, c.lock_ok = true) :
    (lifetime init ctor_lock_ok buf cs).2 =
      (howto_square_ff init ctor_lock_ok buf).2 ++
        (runCalls (howto_square_ff init ctor_lock_ok buf).1 cs).2 ∧
    (howto_square_ff init ctor_lock_ok buf).2.map Prod.fst =
      [Step.lock .output_mutex, Step.write .input_length, Step.write .output_buffer,
       Step.write .output_offset, Step.spawn] ∧
    (∀ e ∈ (howto_square_ff init ctor_lock_ok buf).2, e.2.holds_input_mutex = false) ∧
    ∀ e ∈ (runCalls (howto_square_ff init ctor_lock_ok buf).1 cs).2,
      ((e.1 = Step.write .input_samples ∨ e.1 = Step.write .input_length) →
        e.2.holds_input_mutex = true) ∧
      (e.1 = Step.write .input_offset → e.2.holds_input_mutex = false) := by
  refine ⟨rfl, rfl, ?_, ?_⟩
  · simp [howto_square_ff, Adapter.setState]
  · exact (runCalls_input_writes cs _ rfl hcs).2

theorem input_view_write_discipline_witness :
    (∀ c ∈ [sampleCall], c.lock_ok = true) ∧
    (lifetime zeroState true 4096 [sampleCall]).2 =
      (howto_square_ff zeroState true 4096).2 ++
        (runCalls (howto_square_ff zeroState true 4096).1 [sampleCall]).2 :=
  ⟨by decide,
   (input_view_write_discipline zeroState true 4096 [sampleCall] (by decide)).1⟩

/-- C9: when the constructor's `pthread_mutex_lock` of `output_mutex`
succeeds, the scheduler thread holds `output_mutex` after every step of the
constructor and of every following `general_work` call (whatever the
arguments, the decoder thread and the outcome of the other lock calls), in
particular at the entry and at the exit of every call and at every write to
an output-view field; no step unlocks `output_mutex`, which is given up
only inside `pthread_cond_wait`, and a further call keeps it held. -/
theorem output_mutex_held (init : DsdState) (buf : Nat) (cs : List Call) :
    (lifetime init true buf cs).1.holds_output_mutex = true ∧
    (∀ e ∈ (lifetime init true buf cs).2,
      e.2.holds_output_mutex = true ∧ e.1 ≠ Step.unlock .output_mutex) ∧
    (∀ e ∈ (lifetime init true buf cs).2, ∀ f : Field,
      e.1 = Step.write f → f.isOutputView = true → e.2.holds_output_mutex = true) ∧
    (∀ c : Call, (c.run (lifetime init true buf cs).1).adapter.holds_output_mutex = true) := by
  have hr := runCalls_holds_output cs (howto_square_ff init true buf).1
  have h0 : (howto_square_ff init true buf).1.holds_output_mutex = true := rfl
  rw [h0] at hr
  have hall : ∀ e ∈ (lifetime init true buf cs).2,
      e.2.holds_output_mutex = true ∧ e.1 ≠ Step.unlock .output_mutex := by
    intro e he
    simp only [lifetime, List.mem_append] at he
    rcases he with he | he
    · simp only [howto_square_ff, Adapter.setState, List.mem_cons, List.mem_singleton,
        List.not_mem_nil, or_false] at he
      rcases he with rfl | rfl | rfl | rfl | rfl <;> simp
    · exact hr.2 e he
  refine ⟨hr.1, hall, fun e he _ _ _ => (hall e he).1, ?_⟩
  intro c
  have hc := (general_work_holds_output c.lock_ok c.worker c.fuel c.noutput_items
    c.ninput_items c.input_items c.output_items (lifetime init true buf cs).1).1
  unfold Call.run
  rw [hc]
  exact hr.1

theorem output_mutex_held_witness :
    sampleOutputWrite ∈ (lifetime zeroState true 4096 [sampleCall]).2 ∧
    sampleOutputWrite.1 = Step.write Field.output_finished ∧
    Field.output_finished.isOutputView = true ∧
    sampleOutputWrite.2.holds_output_mutex = true :=
  ⟨by decide, rfl, by decide,
   (output_mutex_held zeroState 4096 [sampleCall]).2.2.1 sampleOutputWrite (by decide)
     Field.output_finished rfl (by decide)⟩

/-- C10 (the code at the failing input): a request of exactly 160 output
items takes the zero-progress branch, because the test is
`noutput_items <= 160`: the call reports `consume (0, 0)`, returns 0,
changes nothing and never signals `input_ready`. -/
theorem general_work_at_160_no_progress (lock_ok : Bool)
    (worker : Nat → DsdState → DsdState) (fuel : Nat) (ninput_items : Nat → Int)
    (input_items output_items : Nat → Nat) (a : Adapter) :
    (general_work lock_ok worker fuel 160 ninput_items input_items output_items a).result
      = some ⟨0, 0⟩ ∧
    (general_work lock_ok worker fuel 160 ninput_items input_items output_items a).adapter
      = a ∧
    (general_work lock_ok worker fuel 160 ninput_items input_items output_items a).trace
      = [(Step.consume 0 0, a), (Step.ret 0, a)] := by
  rw [general_work_guarded _ _ _ _ _ _ _ _ (by decide)]
  simp

end GrDsd
